import Mathlib

/-!
Verification of the CSV analytical tool-execution engine of the chat web
application (source: `src/services/gemini.js`).

Modelling conventions for the shallow embedding:

* JavaScript numbers are modelled as exact rationals (`JsNum`, a normalized
  fraction with an executable gcd), since every numeric value the claims
  exercise is representable exactly.  `Math.sqrt`, which is irrational in
  general, is kept out of the executable result record: the statistics
  record stores the population variance, and the reported standard
  deviation `fmt(Math.sqrt(variance))` is expressed in `ℝ` by `statsStd`.
* JavaScript strings are Lean `String`s; all string processing is done on
  the underlying character lists so that every definition evaluates by
  kernel reduction.  `String.prototype.trim`, `toLowerCase`, `split`,
  `includes` and `slice` are re-implemented on `List Char`.
* A JS row object is an association list in key-insertion order
  (`CsvRow`); `jsObjSet` mirrors JS property assignment (overwrite in
  place, else append), `rowGet` mirrors property lookup (`undefined` is
  `none`).  `Object.keys` and `Object.entries` follow the ECMAScript
  own-property enumeration order (`jsKeyOrder`, `entriesOrder`):
  array-index keys first in ascending numeric order, then the remaining
  keys in insertion order.
* `Array.prototype.sort` with a comparator is modelled by the stable
  insertion sort `jsSortModel` (for a consistent comparator, the result of
  the JS stable sort is exactly the stable sort).
* `parseFloat` is modelled without exponent notation and `Infinity`
  (`jsParseFloat`); no value exercised by the spec or the claims uses
  either.
-/

/-! ### Executable rational numbers (the model of JS numbers) -/

/-- Fuel-driven Euclidean gcd; with fuel at least `a + 1` it computes
`Nat.gcd a b`.  (Defined structurally so that the kernel can evaluate it.) -/
def myGcdAux : Nat → Nat → Nat → Nat
  | 0, _, b => b
  | fuel + 1, a, b => if a = 0 then b else myGcdAux fuel (b % a) a

/-- Executable gcd. -/
def myGcd (a b : Nat) : Nat := myGcdAux (a + 1) a b

/-- A JS number modelled as an exact rational: a normalized fraction with
positive denominator (denominator `0` is an unreachable sentinel for
division by zero, which no modelled code path performs). -/
structure JsNum where
  num : Int
  den : Nat
deriving DecidableEq

/-- Build a normalized `JsNum` from a numerator and a denominator. -/
def mkJsNum (n d : Int) : JsNum :=
  if d = 0 then ⟨0, 0⟩
  else
    let n1 : Int := if d < 0 then -n else n
    let d1 : Nat := d.natAbs
    let g : Nat := myGcd n1.natAbs d1
    ⟨n1 / (g : Int), d1 / g⟩

/-- Addition. -/
def JsNum.add (a b : JsNum) : JsNum :=
  mkJsNum (a.num * (b.den : Int) + b.num * (a.den : Int)) ((a.den : Int) * (b.den : Int))

/-- Subtraction. -/
def JsNum.sub (a b : JsNum) : JsNum :=
  mkJsNum (a.num * (b.den : Int) - b.num * (a.den : Int)) ((a.den : Int) * (b.den : Int))

/-- Multiplication. -/
def JsNum.mul (a b : JsNum) : JsNum :=
  mkJsNum (a.num * b.num) ((a.den : Int) * (b.den : Int))

/-- Division. -/
def JsNum.div (a b : JsNum) : JsNum :=
  mkJsNum (a.num * (b.den : Int)) ((a.den : Int) * b.num)

/-- Comparison `a <= b` (denominators are positive on every reachable value). -/
def JsNum.leB (a b : JsNum) : Bool :=
  decide (a.num * (b.den : Int) ≤ b.num * (a.den : Int))

/-- Comparison `a < b`. -/
def JsNum.ltB (a b : JsNum) : Bool :=
  decide (a.num * (b.den : Int) < b.num * (a.den : Int))

/-- The whole number `n`. -/
def JsNum.ofNat (n : Nat) : JsNum := ⟨(n : Int), 1⟩

/-- `Math.min` of two numbers. -/
def JsNum.minJ (a b : JsNum) : JsNum := if a.leB b then a else b

/-- `Math.max` of two numbers. -/
def JsNum.maxJ (a b : JsNum) : JsNum := if a.leB b then b else a

/-- `Int.fdiv`-based half-up rounding: `round(q)` as JS `toFixed` rounds a
value that is exactly representable (nearest integer, ties toward `+∞`). -/
def JsNum.roundHalfUp (q : JsNum) : Int :=
  Int.fdiv (2 * q.num + (q.den : Int)) (2 * (q.den : Int))

/-- The model of `+n.toFixed(4)`: round to 4 decimal places. -/
def fmt (q : JsNum) : JsNum := mkJsNum (JsNum.roundHalfUp (q.mul ⟨10000, 1⟩)) 10000

/-- The model of `+x.toFixed(6)`: round to 6 decimal places (used for the
engagement ratio). -/
def fmt6 (q : JsNum) : JsNum := mkJsNum (JsNum.roundHalfUp (q.mul ⟨1000000, 1⟩)) 1000000

/-- Interpretation of a `JsNum` as a real number (used only to state the
value of the reported standard deviation, which involves `Real.sqrt`). -/
noncomputable def JsNum.toReal (q : JsNum) : ℝ := (q.num : ℝ) / (q.den : ℝ)

/-- The model of `+x.toFixed(4)` on a real number. -/
noncomputable def fmtR (x : ℝ) : ℝ := (⌊x * 10000 + 1 / 2⌋ : ℤ) / 10000

/-- The standard deviation the statistics tool reports, as a real number:
`fmt(Math.sqrt(variance))`. -/
noncomputable def statsStd (variance : JsNum) : ℝ := fmtR (Real.sqrt variance.toReal)

/-! ### Character-level string helpers -/

/-- ASCII whitespace (the subset of the JS `\s` class that the data model
uses). -/
def isWsChar (c : Char) : Bool := c = ' ' || c = '\t' || c = '\n' || c = '\r'

/-- Lower-case a character (`String.prototype.toLowerCase` restricted to
ASCII letters, the only letters the modelled data contains). -/
def charToLower (c : Char) : Char :=
  if 'A' ≤ c && c ≤ 'Z' then Char.ofNat (c.toNat + 32) else c

/-- Lower-case a character list. -/
def lowerChars (cs : List Char) : List Char := cs.map charToLower

/-- Lower-case a string. -/
def strLower (s : String) : String := String.mk (lowerChars s.data)

/-- Drop leading and trailing whitespace (`String.prototype.trim`). -/
def trimChars (cs : List Char) : List Char :=
  ((cs.dropWhile isWsChar).reverse.dropWhile isWsChar).reverse

/-- `String.prototype.trim`. -/
def strTrim (s : String) : String := String.mk (trimChars s.data)

/-- Split a character list at every occurrence of the separator character
(`String.prototype.split` with a one-character separator). -/
def splitOnCharAux (sep : Char) : List Char → List Char → List (List Char)
  | [], cur => [cur.reverse]
  | c :: rest, cur =>
    if c = sep then cur.reverse :: splitOnCharAux sep rest []
    else splitOnCharAux sep rest (c :: cur)

/-- Split a string at every occurrence of the separator character. -/
def splitOnChar (s : String) (sep : Char) : List String :=
  (splitOnCharAux sep s.data []).map String.mk

/-- Whether `pat` occurs as a contiguous substring of `s`
(`String.prototype.includes`). -/
def containsSub (pat : List Char) : List Char → Bool
  | [] => pat.isEmpty
  | c :: t => pat.isPrefixOf (c :: t) || containsSub pat t

/-- `String.prototype.includes`. -/
def strIncludes (s pat : String) : Bool := containsSub pat.data s.data

/-- Case-insensitive substring test (the model of a `/pat/i` regex test for
a literal pattern). -/
def strIncludesCI (s pat : String) : Bool :=
  containsSub (lowerChars pat.data) (lowerChars s.data)

/-- `String.prototype.slice(0, n)` for a nonnegative end index. -/
def strTake (s : String) (n : Nat) : String := String.mk (s.data.take n)

/-- The numeric value of a list of decimal digit characters. -/
def digitsVal (ds : List Char) : Nat := ds.foldl (fun a c => a * 10 + (c.toNat - 48)) 0

/-- The model of JS `parseFloat`: skip leading whitespace, an optional
sign, integer digits, an optional fraction; `none` models `NaN` (no digit
consumed).  Exponent notation and `Infinity` are outside the modelled
input space. -/
def jsParseFloat (s : String) : Option JsNum :=
  let cs := s.data.dropWhile isWsChar
  let sgn : Int := match cs with
    | '-' :: _ => -1
    | _ => 1
  let cs1 : List Char := match cs with
    | '-' :: t => t
    | '+' :: t => t
    | _ => cs
  let ip := cs1.takeWhile Char.isDigit
  let rest := cs1.dropWhile Char.isDigit
  let fp : List Char := match rest with
    | '.' :: t => t.takeWhile Char.isDigit
    | _ => []
  if ip.isEmpty && fp.isEmpty then none
  else some (mkJsNum (sgn * ((digitsVal ip : Int) * 10 ^ fp.length + (digitsVal fp : Int))) (10 ^ fp.length))

/-! ### The model of `Array.prototype.sort` (stable, comparator-driven) -/

/-- Insert `x` into `acc` after every leading element `y` with `le y x`:
inserting the elements of a list in order with this function is a stable
sort for any total comparator, which is exactly the guarantee of
`Array.prototype.sort`. -/
def stableInsert (le : α → α → Bool) (x : α) : List α → List α
  | [] => [x]
  | y :: ys => if le y x then y :: stableInsert le x ys else x :: y :: ys

/-- The model of `[...arr].sort(cmp)`: a stable sort by the comparator. -/
def jsSortModel (le : α → α → Bool) (l : List α) : List α :=
  l.foldl (fun acc x => stableInsert le x acc) []

/-! ### Cell values and row objects -/

/-- A value stored in a row object: every loaded CSV cell is a string; the
computed engagement column stores a number or `null`. -/
inductive CellVal where
  | str (s : String)
  | num (q : JsNum)
  | null
deriving DecidableEq

/-- `parseFloat` applied to a possibly missing cell value
(`parseFloat(undefined)` and `parseFloat(null)` are `NaN`). -/
def cellToNum : Option CellVal → Option JsNum
  | none => none
  | some (.str s) => jsParseFloat s
  | some (.num q) => some q
  | some .null => none

/-- JS truthiness of a possibly missing cell value. -/
def cellTruthy : Option CellVal → Bool
  | none => false
  | some .null => false
  | some (.num q) => q ≠ ⟨0, 1⟩
  | some (.str s) => s ≠ ""

/-- Decimal rendering of a normalized `JsNum` whose denominator divides a
power of ten (every number the modelled code displays is of that shape: a
`toFixed` result or an integer); other denominators fall back to a
fraction rendering, outside the modelled input space. -/
def jsNumToString (q : JsNum) : String :=
  match (List.range 19).find? (fun k => 10 ^ k % q.den = 0 && q.den ≠ 0) with
  | some 0 => toString q.num
  | some k =>
    let m : Nat := 10 ^ k / q.den
    let n : Nat := q.num.natAbs * m
    let whole := toString (n / 10 ^ k)
    let fracDigits := toString (n % 10 ^ k)
    let padded := String.mk (List.replicate (k - fracDigits.length) '0') ++ fracDigits
    (if q.num < 0 then "-" else "") ++ whole ++ "." ++ padded
  | none => toString q.num ++ "/" ++ toString q.den

/-- JS string coercion of a cell value (`String(v)`). -/
def cellDisplay : CellVal → String
  | .str s => s
  | .num q => jsNumToString q
  | .null => "null"

/-- The model of `v || ''` followed by use as a string: the display string
of a truthy value, else the empty string. -/
def jsOrEmptyStr (v : Option CellVal) : String :=
  if cellTruthy v then cellDisplay ((v.getD .null)) else ""

/-- A row object: an association list in key-insertion order. -/
abbrev CsvRow := List (String × CellVal)

/-- Property lookup (`r[k]`); `none` models `undefined`. -/
def rowGet (r : CsvRow) (k : String) : Option CellVal :=
  (r.find? (fun p => p.1 = k)).map (fun p => p.2)

/-- The keys of a row object in insertion (property-creation) order. -/
def insOrderKeys (r : CsvRow) : List String := r.map (fun p => p.1)

/-- Whether a string is a canonical array-index property key: a canonical
decimal numeral (no leading zero except `0` itself) below 2^32 - 1.
ECMAScript enumerates such keys before all other string keys. -/
def isArrayIndexKey (s : String) : Bool :=
  !s.data.isEmpty && s.data.all Char.isDigit &&
    (s = "0" || s.data.headD '0' ≠ '0') && digitsVal s.data < 4294967295

/-- ECMAScript own-property enumeration order over a key list in insertion
order: array-index keys first, ascending numerically, then the remaining
keys in insertion order. -/
def jsKeyOrder (l : List String) : List String :=
  jsSortModel (fun a b => decide (digitsVal a.data ≤ digitsVal b.data))
      (l.filter isArrayIndexKey) ++
    l.filter (fun k => !isArrayIndexKey k)

/-- `Object.keys`: the keys in ECMAScript enumeration order. -/
def rowKeys (r : CsvRow) : List String := jsKeyOrder (insOrderKeys r)

/-- Property assignment (`obj[k] = v`): overwrite in place when the key
exists, else append. -/
def jsObjSet (r : CsvRow) (k : String) (v : CellVal) : CsvRow :=
  if r.any (fun p => p.1 = k) then r.map (fun p => if p.1 = k then (k, v) else p)
  else r ++ [(k, v)]

/-! ### CSV line and file parsing (`parseLine`, `parseCsvToRows`) -/

/-- One step of `parseLine`: a double quote toggles the in-quotes state (and
is never emitted), a comma outside quotes ends the current field, any other
character is appended; every field is trimmed as it is pushed. -/
def parseLineAux : List Char → Bool → List Char → List (List Char)
  | [], _, cur => [trimChars cur]
  | c :: rest, inQuotes, cur =>
    if c = '"' then parseLineAux rest (!inQuotes) cur
    else if c = ',' && !inQuotes then trimChars cur :: parseLineAux rest false []
    else parseLineAux rest inQuotes (cur ++ [c])

/-- Parse one CSV line into its fields, respecting quoted fields. -/
def parseLine (line : String) : List String :=
  (parseLineAux line.data false []).map String.mk

/-- Strip one leading and one trailing double quote
(`replace(/^"|"$/g, '')`). -/
def stripWrapQuotes (s : String) : String :=
  let cs := s.data
  let cs1 := match cs with
    | '"' :: t => t
    | _ => cs
  let cs2 := match cs1.reverse with
    | '"' :: t => t.reverse
    | _ => cs1
  String.mk cs2

/-- A loaded dataset: the header list and the rows. -/
structure CsvData where
  headers : List String
  rows : List CsvRow
deriving DecidableEq

/-- Build one row object: for the header at index `i`, `obj[h] = (vals[i] || '')`
with the quote wrapper stripped; the headers are consumed in order, taking
one value each. -/
def buildRowAux (obj : CsvRow) : List String → List String → CsvRow
  | [], _ => obj
  | h :: hs, vals =>
    buildRowAux (jsObjSet obj h (.str (stripWrapQuotes (vals.headD "")))) hs (vals.drop 1)

/-- Build one row object from the header list and the parsed fields of a
line. -/
def buildRow (headers vals : List String) : CsvRow := buildRowAux [] headers vals

/-- Parse a full CSV text: split on newlines, drop blank lines, parse the
first non-blank line as the header (stripping quote wrappers), and build
one row object per remaining line; fewer than two non-blank lines give the
empty dataset. -/
def parseCsvToRows (text : String) : CsvData :=
  let lines := (splitOnChar text '\n').filter (fun l => strTrim l ≠ "")
  if lines.length < 2 then ⟨[], []⟩
  else
    let headers := (parseLine (lines.headD "")).map stripWrapQuotes
    let rows := (lines.drop 1).map (fun line => buildRow headers (parseLine line))
    ⟨headers, rows⟩

/-! ### Column resolution and math helpers -/

/-- Normalize a column name: lower-case, and delete every space, underscore
and hyphen (deleting each such character equals collapsing runs of them to
nothing). -/
def normName (s : String) : String :=
  String.mk ((lowerChars s.data).filter (fun c => !(isWsChar c || c = '_' || c = '-')))

/-- Resolve a caller-supplied column name against the keys of the first
row: exact match first, then the first key (in enumeration order) whose
normalized form equals the normalized candidate — returned through the JS
`|| name` falsiness fallback, so a matched empty-string header falls back
to the candidate; with no match the candidate is returned unchanged.
(`!name` is the JS falsiness test on the candidate string.) -/
def resolveCol (rows : List CsvRow) (name : String) : String :=
  if rows.isEmpty || name = "" then name
  else
    let keys := rowKeys (rows.headD [])
    if keys.contains name then name
    else
      let target := normName name
      match keys.find? (fun k => normName k = target) with
      | some k => if k = "" then name else k
      | none => name

/-- The parseable numeric values of a column, in row order
(`rows.map(r => parseFloat(r[col])).filter(v => !isNaN(v))`). -/
def numericValues (rows : List CsvRow) (col : String) : List JsNum :=
  rows.filterMap (fun r => cellToNum (rowGet r col))

/-- Median of an already-sorted list: the average of the two central
elements when the length is even, the central element when odd. -/
def medianOfSorted (l : List JsNum) : JsNum :=
  if l.length % 2 = 0 then
    ((l.getD (l.length / 2 - 1) ⟨0, 1⟩).add (l.getD (l.length / 2) ⟨0, 1⟩)).div ⟨2, 1⟩
  else l.getD (l.length / 2) ⟨0, 1⟩

/-! ### Derived-field enrichment (`enrichWithEngagement`) -/

/-- The model of the regex test `/favorite.?count/i`: case-insensitively,
`favorite` followed by at most one arbitrary character and then `count`,
anywhere in the string. -/
def isFavoriteCountName (s : String) : Bool :=
  let t := lowerChars s.data
  containsSub "favoritecount".data t ||
    (List.range t.length).any (fun i =>
      "favorite".data.isPrefixOf (t.drop i) && "count".data.isPrefixOf (t.drop (i + 9)))

/-- The model of the regex test `/^likes?$/i`. -/
def isLikesName (s : String) : Bool := strLower s = "like" || strLower s = "likes"

/-- The model of the regex test `/view.?count/i`. -/
def isViewCountName (s : String) : Bool :=
  let t := lowerChars s.data
  containsSub "viewcount".data t ||
    (List.range t.length).any (fun i =>
      "view".data.isPrefixOf (t.drop i) && "count".data.isPrefixOf (t.drop (i + 5)))

/-- The model of the regex test `/^views?$/i`. -/
def isViewsName (s : String) : Bool := strLower s = "view" || strLower s = "views"

/-- Auto-detect the favorites column: the first header matching
`/favorite.?count/i`, else the first matching `/^likes?$/i`. -/
def favColOf (headers : List String) : Option String :=
  (headers.find? isFavoriteCountName).or (headers.find? isLikesName)

/-- Auto-detect the views column: the first header matching
`/view.?count/i`, else the first matching `/^views?$/i`. -/
def viewColOf (headers : List String) : Option String :=
  (headers.find? isViewCountName).or (headers.find? isViewsName)

/-- The engagement value of one row: `favorites / views` rounded to 6
decimal places when both parse and views is positive, else `null`. -/
def engagementVal (favCol viewCol : String) (r : CsvRow) : CellVal :=
  match cellToNum (rowGet r favCol), cellToNum (rowGet r viewCol) with
  | some fav, some view =>
    if JsNum.ltB ⟨0, 1⟩ view then .num (fmt6 (fav.div view)) else .null
  | _, _ => .null

/-- Enrich a dataset with the computed engagement column: a no-op when the
rows are empty, a source column is missing, or `engagement` is already a
header; otherwise every row gets the new field and `engagement` is
appended to the headers. -/
def enrichWithEngagement (rows : List CsvRow) (headers : List String) :
    List CsvRow × List String :=
  if rows.isEmpty then (rows, headers)
  else
    match favColOf headers, viewColOf headers with
    | some favCol, some viewCol =>
      if headers.contains "engagement" then (rows, headers)
      else
        (rows.map (fun r => jsObjSet r "engagement" (engagementVal favCol viewCol r)),
         headers ++ ["engagement"])
    | _, _ => (rows, headers)

/-! ### Tool arguments and results -/

/-- The structured arguments a tool call carries (the union of the fields
of the seven declared tools; an absent optional number or boolean is
`none`, an absent string is the empty string).  Tool-call numbers are
modelled as naturals: every modelled call passes a nonnegative whole
count. -/
structure ToolArgs where
  column : String := ""
  top_n : Option Nat := none
  sort_column : String := ""
  n : Option Nat := none
  ascending : Option Bool := none
  metric : String := ""
  selector : String := ""
  prompt : String := ""
  anchorImageBase64 : Option String := none
deriving DecidableEq

/-- One point of a chart payload. -/
structure ChartPoint where
  date : String
  value : JsNum
  name : String
deriving DecidableEq

/-- A tool execution result: one variant per shape the executor returns
(`_chartType`, `_generatedImage` and `_videoCard` tagged objects become
constructors; the sanitized image acknowledgement is its own
constructor). -/
inductive ToolResult where
  | error (msg : String)
  | stats (column : String) (count : Nat) (mean median variance minv maxv : JsNum)
  | valueCounts (column : String) (totalRows : Nat) (counts : List (CellVal × Nat))
  | tweets (sortColumn direction : String) (count : Nat) (rows : List CsvRow)
  | chart (chartType : String) (data : List ChartPoint) (metricColumn : String) (truncated : Bool)
  | videoCard (title thumbnail url : String)
  | image (data mime : String)
  | imageAck (message : String)
deriving DecidableEq

/-- The model of `x || d` on a tool-call count: a missing or zero (falsy)
value falls back to the default. -/
def jsOrNat (o : Option Nat) (d : Nat) : Nat :=
  match o with
  | some v => if v = 0 then d else v
  | none => d

/-- The model of `v || d` where the result is used as a string. -/
def jsOrStr (v : Option CellVal) (d : String) : String :=
  if cellTruthy v then cellDisplay (v.getD .null) else d

/-- First truthy value of a chain `a || b || ...` of property reads. -/
def firstTruthyCell : List (Option CellVal) → Option CellVal
  | [] => none
  | v :: t => if cellTruthy v then v else firstTruthyCell t

/-- `join(', ')`. -/
def joinComma : List String → String
  | [] => ""
  | [s] => s
  | s :: t => s ++ ", " ++ joinComma t

/-- Increment the count of `v` in the frequency list, preserving the
insertion order of first occurrences (the model of `counts[v] =
(counts[v] || 0) + 1` on a JS object). -/
def bumpCount : List (CellVal × Nat) → CellVal → List (CellVal × Nat)
  | [], v => [(v, 1)]
  | (k, c) :: t, v => if k = v then (k, c + 1) :: t else (k, c) :: bumpCount t v

/-- `Object.entries` enumeration order of the counts object: entries
whose key string is a canonical array index first, ascending numerically,
then the remaining entries in first-insertion order (the ECMAScript
own-property order; a cell value is coerced to its key string). -/
def entriesOrder (l : List (CellVal × Nat)) : List (CellVal × Nat) :=
  jsSortModel
      (fun a b => decide (digitsVal (cellDisplay a.1).data ≤ digitsVal (cellDisplay b.1).data))
      (l.filter (fun e => isArrayIndexKey (cellDisplay e.1))) ++
    l.filter (fun e => !isArrayIndexKey (cellDisplay e.1))

/-- Lexicographic order on character lists by code point: the order of JS
string comparison, and of `new Date` comparison on same-format ISO-8601
date strings (the shape of the modelled `published_at` values). -/
def charListLe : List Char → List Char → Bool
  | [], _ => true
  | _ :: _, [] => false
  | a :: as, b :: bs => if a = b then charListLe as bs else decide (a.toNat < b.toNat)

/-- `getViews`: `parseFloat(r.view_count || r.views || 0) || 0`. -/
def getViews (r : CsvRow) : JsNum :=
  let src := match firstTruthyCell [rowGet r "view_count", rowGet r "views"] with
    | some v => some v
    | none => some (.num ⟨0, 1⟩)
  (cellToNum src).getD ⟨0, 1⟩

/-- `hasUrl`: `r.video_url || r.url` is truthy. -/
def hasUrl (r : CsvRow) : Bool :=
  cellTruthy (rowGet r "video_url") || cellTruthy (rowGet r "url")

/-- Select a video row by the lowered selector string: the literal
selectors first, then a case-insensitive substring match against titles. -/
def pickVideo (rows : List CsvRow) (sel : String) : Option CsvRow :=
  if sel = "first" || sel = "1" then rows.head?
  else if sel = "last" || sel = "most recent" then rows.getLast?
  else if sel = "most viewed" || sel = "most views" then
    (jsSortModel (fun a b => (getViews b).leB (getViews a)) rows).head?
  else if sel = "least viewed" then
    (jsSortModel (fun a b => (getViews a).leB (getViews b)) rows).head?
  else rows.find? (fun r => strIncludes (strLower (jsOrStr (rowGet r "title") "")) sel)

/-- The comparator of `get_top_tweets`: numeric on the sort column,
descending by default and ascending on request; a pair where either side
fails to parse compares as equal (comparator result `0`). -/
def tweetCmp (sortCol : String) (asc : Bool) (a b : CsvRow) : Bool :=
  match cellToNum (rowGet a sortCol), cellToNum (rowGet b sortCol) with
  | some av, some bv => if asc then av.leB bv else bv.leB av
  | _, _ => true

/-- Build the projected top-tweet rows: `rank`, the detected text column
truncated to 150 characters, the detected favorite/view metric columns and
the engagement column when present (a missing metric value is modelled as
`null`). -/
def buildTopTweets (textCol favCol viewCol : Option String) (engCol : Bool) :
    Nat → List CsvRow → List CsvRow
  | _, [] => []
  | i, r :: t =>
    let out : CsvRow := [("rank", .num ⟨(i : Int) + 1, 1⟩)]
    let out := match textCol with
      | some tc => jsObjSet out "text" (.str (strTake (jsOrStr (rowGet r tc) "") 150))
      | none => out
    let out := match favCol with
      | some fc => jsObjSet out fc ((rowGet r fc).getD .null)
      | none => out
    let out := match viewCol with
      | some vc => jsObjSet out vc ((rowGet r vc).getD .null)
      | none => out
    let out := if engCol then jsObjSet out "engagement" ((rowGet r "engagement").getD .null) else out
    out :: buildTopTweets textCol favCol viewCol engCol (i + 1) t

/-- The client-side tool executor: one branch per declared tool, every
failure returned as a structured `error` result.  The image-generation
collaborator (a network call in the source) is the parameter `imgApi`. -/
def executeTool (imgApi : String → Option String → Except String (String × String))
    (toolName : String) (args : ToolArgs) (rows : List CsvRow)
    (userImages : List (String × String)) : ToolResult :=
  let availableHeaders := if rows.isEmpty then [] else rowKeys (rows.headD [])
  if toolName = "compute_column_stats" then
    let col := resolveCol rows args.column
    match numericValues rows col with
    | [] =>
      .error ("No numeric values found in column \"" ++ col ++ "\". Available columns: " ++
        joinComma availableHeaders)
    | v :: vs =>
      let vals := v :: vs
      let mean := (vals.foldl JsNum.add ⟨0, 1⟩).div (JsNum.ofNat vals.length)
      let sorted := jsSortModel JsNum.leB vals
      let variance :=
        (vals.foldl (fun a b : JsNum => a.add ((b.sub mean).mul (b.sub mean))) (⟨0, 1⟩ : JsNum)).div
          (JsNum.ofNat vals.length)
      .stats col vals.length (fmt mean) (fmt (medianOfSorted sorted)) variance
        (vs.foldl JsNum.minJ v) (vs.foldl JsNum.maxJ v)
  else if toolName = "get_value_counts" then
    let col := resolveCol rows args.column
    let topN := jsOrNat args.top_n 10
    let counts := rows.foldl
      (fun acc r =>
        match rowGet r col with
        | none => acc
        | some v => if v = .str "" then acc else bumpCount acc v)
      []
    let sorted := jsSortModel (fun a b : CellVal × Nat => decide (b.2 ≤ a.2)) (entriesOrder counts)
    .valueCounts col rows.length (sorted.take topN)
  else if toolName = "get_top_tweets" then
    let sortCol := resolveCol rows args.sort_column
    let n := jsOrNat args.n 10
    let asc := args.ascending.getD false
    let textCol := (availableHeaders.find? (fun h => strLower h = "text")).or
      (availableHeaders.find? (fun h =>
        strIncludesCI h "text" || strIncludesCI h "content" ||
        strIncludesCI h "tweet" || strIncludesCI h "body"))
    let favCol := availableHeaders.find? isFavoriteCountName
    let viewCol := availableHeaders.find? isViewCountName
    let engCol := availableHeaders.contains "engagement"
    let sorted := jsSortModel (tweetCmp sortCol asc) rows
    let topRows := buildTopTweets textCol favCol viewCol engCol 0 (sorted.take n)
    if topRows.isEmpty then
      .error ("No rows found. Column \"" ++ sortCol ++ "\" may not exist. Available: " ++
        joinComma availableHeaders)
    else
      .tweets sortCol
        (if asc then "ascending (lowest first)" else "descending (highest first)")
        topRows.length topRows
  else if toolName = "compute_stats_json" then
    let col := resolveCol rows args.column
    match numericValues rows col with
    | [] =>
      .error ("No numeric values in \"" ++ col ++ "\". Available: " ++ joinComma availableHeaders)
    | v :: vs =>
      let vals := v :: vs
      let mean := (vals.foldl JsNum.add ⟨0, 1⟩).div (JsNum.ofNat vals.length)
      let sorted := jsSortModel JsNum.leB vals
      let variance :=
        (vals.foldl (fun a b : JsNum => a.add ((b.sub mean).mul (b.sub mean))) (⟨0, 1⟩ : JsNum)).div
          (JsNum.ofNat vals.length)
      .stats col vals.length (fmt mean) (fmt (medianOfSorted sorted)) variance
        (vs.foldl JsNum.minJ v) (vs.foldl JsNum.maxJ v)
  else if toolName = "plot_metric_vs_time" then
    let metric := resolveCol rows args.metric
    let dateCol := ((availableHeaders.find? (fun h => strLower h = "published_at")).or
      (availableHeaders.find? (fun h =>
        strIncludesCI h "release_date" || strIncludesCI h "date" ||
        strIncludesCI h "published"))).getD "published_at"
    let chartData := rows.filterMap (fun r =>
      let date := jsOrStr
        (firstTruthyCell [rowGet r dateCol, rowGet r "published_at", rowGet r "release_date"]) ""
      let nm := strTake (jsOrStr (firstTruthyCell [rowGet r "title", rowGet r "name"]) "") 30
      match cellToNum (rowGet r metric) with
      | some v => if date ≠ "" then some (⟨date, v, nm⟩ : ChartPoint) else none
      | none => none)
    let sortedData := jsSortModel (fun a b : ChartPoint => charListLe a.date.data b.date.data) chartData
    if sortedData.isEmpty then
      .error ("No valid data for " ++ metric ++ " vs time. Check field names.")
    else .chart "metricVsTime" sortedData metric false
  else if toolName = "play_video" then
    let sel := strLower args.selector
    match pickVideo rows sel with
    | some v =>
      if hasUrl v then
        .videoCard (jsOrStr (rowGet v "title") "Video") (jsOrStr (rowGet v "thumbnail") "")
          (jsOrStr (rowGet v "video_url") (cellDisplay ((rowGet v "url").getD .null)))
      else
        .error ("Video not found for \"" ++ args.selector ++
          "\". Try \"first\", \"most viewed\", or a title keyword.")
    | none =>
      .error ("Video not found for \"" ++ args.selector ++
        "\". Try \"first\", \"most viewed\", or a title keyword.")
  else if toolName = "generateImage" then
    let a1 := args.anchorImageBase64.getD ""
    let anchor : Option String :=
      if a1 ≠ "" then some a1
      else match userImages.head? with
        | some u => if u.1 ≠ "" then some u.1 else none
        | none => none
    match imgApi args.prompt anchor with
    | .ok (b64, mime) => .image b64 (if mime = "" then "image/png" else mime)
    | .error e => .error (if e = "" then "Image generation failed" else e)
  else .error ("Unknown tool: " ++ toolName)

/-! ### The tool dispatch loop (`chatWithCsvTools`) -/

/-- Whether a result is chart-tagged (`result._chartType` is truthy). -/
def isChartTagged : ToolResult → Bool
  | .chart ct _ _ _ => ct ≠ ""
  | _ => false

/-- Sanitize a tool result before sending it back to the model: an
image-generation result becomes a short acknowledgement, a chart result
with more than 50 data points is truncated to the first 50 with the
truncation flag set, and everything else passes through unchanged. -/
def sanitizeForApi (result : ToolResult) : ToolResult :=
  match result with
  | .image _ _ => .imageAck "Image generated successfully. It is displayed to the user."
  | .chart ct data metric tr =>
    if ct ≠ "" && decide (data.length > 50) then .chart ct (data.take 50) metric true
    else .chart ct data metric tr
  | r => r

/-- One part of a model response: text, a function call, or something
else. -/
inductive RespPart where
  | text (s : String)
  | functionCall (name : String) (args : ToolArgs)
  | other
deriving DecidableEq

/-- `parts.find(p => p.functionCall)`: the first function call of a
response. -/
def findFunctionCall (parts : List RespPart) : Option (String × ToolArgs) :=
  parts.findSome? (fun p => match p with
    | .functionCall name args => some (name, args)
    | _ => none)

/-- `response.text()`: the concatenated text parts. -/
def responseText (parts : List RespPart) : String :=
  parts.foldl (fun acc p => match p with
    | .text s => acc ++ s
    | _ => acc) ""

/-- One message of the chat history handed to the model. -/
structure ChatMsg where
  role : String
  text : String
deriving DecidableEq

/-- One message of the caller's conversation history. -/
structure Msg where
  role : String
  content : String
deriving DecidableEq

/-- A behaviour of the external model client, with an arbitrary internal
state type `σ` (the growing server-side chat history): starting a chat,
sending the user message, and sending one function-response turn. -/
structure ModelClient (σ : Type) where
  start : List ChatMsg → σ
  sendText : σ → String → σ × List RespPart
  sendFuncResult : σ → String → ToolResult → σ × List RespPart

/-- One record of the tool-call log. -/
structure ToolCallRec where
  name : String
  args : ToolArgs
  result : ToolResult
deriving DecidableEq

/-- What `chatWithCsvTools` returns: the final text, the chart list, and
the call log. -/
structure FinalResult where
  text : String
  charts : List ToolResult
  toolCalls : List ToolCallRec
deriving DecidableEq

/-- The function-calling loop: while fuel remains and the response names a
tool, execute it, append exactly one record to the call log (and the chart
list when chart-tagged), send the sanitized result back to the model, and
continue with the new response. -/
def dispatchLoop {σ : Type} (client : ModelClient σ)
    (executeFn : String → ToolArgs → ToolResult) :
    Nat → σ → List RespPart → List ToolResult → List ToolCallRec → FinalResult
  | 0, _, parts, charts, calls => ⟨responseText parts, charts, calls⟩
  | fuel + 1, s, parts, charts, calls =>
    match findFunctionCall parts with
    | none => ⟨responseText parts, charts, calls⟩
    | some (name, args) =>
      let r := executeFn name args
      let next := client.sendFuncResult s name (sanitizeForApi r)
      dispatchLoop client executeFn fuel next.1 next.2
        (charts ++ (if isChartTagged r then [r] else []))
        (calls ++ [⟨name, args, r⟩])

/-- Build the chat history handed to the model: the last 20 caller
messages, each truncated to 8000 characters and mapped to the user/model
roles, prefixed by the system-prompt exchange when a system prompt is
present. -/
def buildChatHistory (sysPrompt : String) (history : List Msg) : List ChatMsg :=
  let base := (history.drop (history.length - 20)).map
    (fun m => ⟨if m.role = "user" then "user" else "model", strTake m.content 8000⟩)
  if sysPrompt = "" then base
  else
    ⟨"user", "Follow these instructions in every response:\n\n" ++ sysPrompt⟩ ::
      ⟨"model", "Got it! I'll follow those instructions."⟩ :: base

/-- Prefix the user message with the CSV column list when headers are
loaded. -/
def msgWithContext (csvHeaders : List String) (newMessage : String) : String :=
  if csvHeaders.isEmpty then newMessage
  else "[CSV columns: " ++ joinComma csvHeaders ++ "]\n\n" ++ newMessage

/-- The function-calling chat: start the chat with the built history, send
the contextualized message, and run the dispatch loop for at most 5
rounds.  (Image attachments, which do not influence the loop, are
abstracted into the client's `sendText`.) -/
def chatWithCsvTools {σ : Type} (client : ModelClient σ) (sysPrompt : String)
    (history : List Msg) (newMessage : String) (csvHeaders : List String)
    (executeFn : String → ToolArgs → ToolResult) : FinalResult :=
  let s0 := client.start (buildChatHistory sysPrompt history)
  let first := client.sendText s0 (msgWithContext csvHeaders newMessage)
  dispatchLoop client executeFn 5 first.1 first.2 [] []

/-! ### Concrete fixtures used by the claim theorems and witnesses -/

/-- Chart data of 80 points for the C2 witness. -/
def c2data80 : List ChartPoint := (List.range 80).map (fun i => ⟨toString i, ⟨(i : Int), 1⟩, ""⟩)

/-- A trivial stateless model client for the C2 witness. -/
def c2client : ModelClient Unit :=
  ⟨fun _ => (), fun _ _ => ((), []), fun _ _ _ => ((), [])⟩

/-- A tool executor returning the 80-point chart, for the C2 witness. -/
def c2exec : String → ToolArgs → ToolResult :=
  fun _ _ => .chart "metricVsTime" c2data80 "v" false

/-- An image-generation collaborator that always fails; the claims about
the pure tools never reach it. -/
def dummyImgApi : String → Option String → Except String (String × String) :=
  fun _ _ => .error "unavailable"

/-- The rows of the CSV text `v\n1\n2\noops\n3\n4`: the numeric values
1, 2, 3, 4 plus one unparseable cell. -/
def rowsC3 : List CsvRow := (parseCsvToRows "v\n1\n2\noops\n3\n4").rows

/-- Rows whose column `v` carries the values a, a, b. -/
def rowsAB : List CsvRow := [[("v", .str "a")], [("v", .str "a")], [("v", .str "b")]]

/-- Rows whose column `v` carries the integer-like values
9, 9, 2, 2, 5, 5 (in that encounter order). -/
def rows955 : List CsvRow :=
  [[("v", .str "9")], [("v", .str "9")], [("v", .str "2")],
   [("v", .str "2")], [("v", .str "5")], [("v", .str "5")]]

/-- Eleven rows with eleven distinct values in column `v`. -/
def rows11 : List CsvRow := (List.range 11).map (fun i => [("v", .str (toString i))])

/-- Eleven rows with non-numeric values in column `v` (the top-tweets sort
treats them all as ties). -/
def rows11t : List CsvRow :=
  (List.range 11).map (fun i => [("v", .str (String.mk (List.replicate (i + 1) 'x')))])

/-! ### Helper lemmas about the dispatch loop -/

/-- The loop appends exactly one call record per executed round, so the
final call log is bounded by the starting log plus the fuel. -/
theorem dispatchLoop_calls_length_le {σ : Type} (client : ModelClient σ)
    (executeFn : String → ToolArgs → ToolResult) :
    ∀ (fuel : Nat) (s : σ) (parts : List RespPart) (charts : List ToolResult)
      (calls : List ToolCallRec),
      (dispatchLoop client executeFn fuel s parts charts calls).toolCalls.length ≤
        calls.length + fuel := by
  intro fuel
  induction fuel with
  | zero =>
    intro s parts charts calls
    simp [dispatchLoop]
  | succ n ih =>
    intro s parts charts calls
    simp only [dispatchLoop]
    cases h : findFunctionCall parts with
    | none => exact Nat.le_add_right _ _
    | some nm =>
      obtain ⟨name, args⟩ := nm
      have h2 := ih
        (client.sendFuncResult s name (sanitizeForApi (executeFn name args))).1
        (client.sendFuncResult s name (sanitizeForApi (executeFn name args))).2
        (charts ++ (if isChartTagged (executeFn name args) then [executeFn name args] else []))
        (calls ++ [⟨name, args, executeFn name args⟩])
      exact h2.trans (by simp only [List.length_append, List.length_singleton]; omega)

/-! ### Claim theorems -/

/-- Claim C1: for every conversation history, user message, header list,
tool-executor function and behaviour of the external model client —
including one whose response names a tool on every turn — `chatWithCsvTools`
performs at most 5 dispatch rounds, appends exactly one call record per
round (visible in `dispatchLoop`), and always terminates (it is a total
function), so the returned `toolCalls` list has length at most 5. -/
theorem c1_dispatch_round_cap {σ : Type} (client : ModelClient σ) (sysPrompt : String)
    (history : List Msg) (newMessage : String) (csvHeaders : List String)
    (executeFn : String → ToolArgs → ToolResult) :
    (chatWithCsvTools client sysPrompt history newMessage csvHeaders executeFn).toolCalls.length ≤ 5 := by
  have h := dispatchLoop_calls_length_le client executeFn 5
    (client.sendText (client.start (buildChatHistory sysPrompt history))
      (msgWithContext csvHeaders newMessage)).1
    (client.sendText (client.start (buildChatHistory sysPrompt history))
      (msgWithContext csvHeaders newMessage)).2
    [] []
  simpa [chatWithCsvTools] using h

/-- Claim C2: a chart-tagged result with more than 50 data points is
sanitized to exactly its first 50 points with the truncation flag set, an
image result is sanitized to a short acknowledgement without the image
bytes, and the dispatch loop logs and collects the full untruncated result
for the caller while sending the model only the sanitized copy. -/
theorem c2_sanitize_truncation :
    (∀ (ct : String) (data : List ChartPoint) (metric : String) (tr : Bool),
        ct ≠ "" → data.length > 50 →
        sanitizeForApi (.chart ct data metric tr) = .chart ct (data.take 50) metric true) ∧
    (∀ (d m : String),
        sanitizeForApi (.image d m) =
          .imageAck "Image generated successfully. It is displayed to the user.") ∧
    (∀ (σ : Type) (client : ModelClient σ) (executeFn : String → ToolArgs → ToolResult)
        (fuel : Nat) (s : σ) (parts : List RespPart) (charts : List ToolResult)
        (calls : List ToolCallRec) (name : String) (args : ToolArgs),
        findFunctionCall parts = some (name, args) →
        dispatchLoop client executeFn (fuel + 1) s parts charts calls =
          dispatchLoop client executeFn fuel
            (client.sendFuncResult s name (sanitizeForApi (executeFn name args))).1
            (client.sendFuncResult s name (sanitizeForApi (executeFn name args))).2
            (charts ++ (if isChartTagged (executeFn name args) then [executeFn name args] else []))
            (calls ++ [⟨name, args, executeFn name args⟩])) := by
  refine ⟨?_, ?_, ?_⟩
  · intro ct data metric tr hct hlen
    simp [sanitizeForApi, hct, hlen]
  · intro d m
    rfl
  · intro σ client executeFn fuel s parts charts calls name args h
    simp only [dispatchLoop]
    rw [h]

/-- Witness for C2 at concrete inputs: an 80-point chart sanitizes to its
first 50 points with the flag set, an image result sanitizes to the
acknowledgement, and one concrete loop round logs the full chart while
sending the sanitized copy. -/
theorem c2_sanitize_truncation_witness :
    sanitizeForApi (.chart "metricVsTime" c2data80 "v" false) =
      .chart "metricVsTime" (c2data80.take 50) "v" true ∧
    sanitizeForApi (.image "BYTES" "image/png") =
      .imageAck "Image generated successfully. It is displayed to the user." ∧
    dispatchLoop c2client c2exec 5 () [RespPart.functionCall "plot_metric_vs_time" {}] [] [] =
      dispatchLoop c2client c2exec 4
        (c2client.sendFuncResult () "plot_metric_vs_time"
          (sanitizeForApi (c2exec "plot_metric_vs_time" {}))).1
        (c2client.sendFuncResult () "plot_metric_vs_time"
          (sanitizeForApi (c2exec "plot_metric_vs_time" {}))).2
        ([] ++ (if isChartTagged (c2exec "plot_metric_vs_time" {})
          then [c2exec "plot_metric_vs_time" {}] else []))
        ([] ++ [⟨"plot_metric_vs_time", {}, c2exec "plot_metric_vs_time" {}⟩]) :=
  ⟨c2_sanitize_truncation.1 "metricVsTime" c2data80 "v" false (by decide) (by decide),
   c2_sanitize_truncation.2.1 "BYTES" "image/png",
   c2_sanitize_truncation.2.2 Unit c2client c2exec 4 ()
     [RespPart.functionCall "plot_metric_vs_time" {}] [] [] "plot_metric_vs_time" {} (by decide)⟩

/-- Claim C3: descriptive statistics silently drops values that fail
numeric parsing and returns count, mean, median (average of the two
central sorted elements when even), population variance-based standard
deviation, min and max, rounded to 4 decimal places: on the values
1, 2, 3, 4 (with one dropped unparseable cell) the result is count 4,
mean 5/2, median 5/2, population variance 5/4, min 1, max 4, and the
reported standard deviation `fmt(Math.sqrt(5/4))` equals 1.118 (the
population standard deviation; the sample one would report 1.291). -/
theorem c3_column_stats :
    executeTool dummyImgApi "compute_column_stats" { column := "v" } rowsC3 [] =
      .stats "v" 4 ⟨5, 2⟩ ⟨5, 2⟩ ⟨5, 4⟩ ⟨1, 1⟩ ⟨4, 1⟩ ∧
    (∀ (rows : List CsvRow) (col : String) (r : CsvRow),
        cellToNum (rowGet r col) = none →
        numericValues (rows ++ [r]) col = numericValues rows col) ∧
    statsStd ⟨5, 4⟩ = 1118 / 1000 := by
  refine ⟨by decide, ?_, ?_⟩
  · intro rows col r h
    unfold numericValues
    rw [List.filterMap_append]
    simp [h]
  · have h0 : (JsNum.toReal ⟨5, 4⟩) = 5 / 4 := by
      simp [JsNum.toReal]
    have hlb : (1.11795 : ℝ) < Real.sqrt (5 / 4) :=
      (Real.lt_sqrt (by norm_num)).mpr (by norm_num)
    have hub : Real.sqrt (5 / 4) < 1.11805 :=
      (Real.sqrt_lt' (by norm_num)).mpr (by norm_num)
    have hfloor : ⌊Real.sqrt ((5 : ℝ) / 4) * 10000 + 1 / 2⌋ = (11180 : ℤ) := by
      rw [Int.floor_eq_iff]
      constructor
      · push_cast
        nlinarith [hlb]
      · push_cast
        nlinarith [hub]
    rw [statsStd, fmtR, h0, hfloor]
    norm_num

/-- Witness for C3: a row whose cell fails numeric parsing is dropped
silently from the numeric values. -/
theorem c3_column_stats_witness :
    cellToNum (rowGet [("v", CellVal.str "oops")] "v") = none ∧
    numericValues ([[("v", CellVal.str "1")]] ++ [[("v", CellVal.str "oops")]]) "v" =
      numericValues [[("v", CellVal.str "1")]] "v" :=
  ⟨by decide,
   c3_column_stats.2.1 [[("v", CellVal.str "1")]] "v" [("v", CellVal.str "oops")] (by decide)⟩

/-- Counterexample to claim C4 as stated: the source ends the fuzzy lookup
with `keys.find(...) || name`, so a matched empty-string header (reachable
via a trailing comma in the header line) is falsy and the candidate is
returned — here the first (and only) normalized match for the candidate
`_` is the header `""`, yet the resolver returns `_`, not `""`. -/
theorem c4_falsy_header_counterexample :
    (rowKeys [("a", CellVal.str "1"), ("", CellVal.str "2")]).find?
        (fun k => normName k = normName "_") = some "" ∧
    resolveCol [[("a", CellVal.str "1"), ("", CellVal.str "2")]] "_" = "_" ∧
    ("_" : String) ≠ "" := by decide

/-- Claim C4 (amended): resolving a name that exactly matches a key is the
identity; otherwise the resolver takes the first key, in `Object.keys`
enumeration order, whose normalized form equals the normalized candidate,
and returns it when it is truthy (non-empty) — a matched empty-string
header, like no match at all, falls back to the original candidate.  The
spec's concrete examples all resolve to `View_Count`. -/
theorem c4_resolve_col :
    (∀ (r : CsvRow) (rest : List CsvRow) (name : String),
        (rowKeys r).contains name = true → resolveCol (r :: rest) name = name) ∧
    (∀ (r : CsvRow) (rest : List CsvRow) (name k : String),
        name ≠ "" → (rowKeys r).contains name = false →
        (rowKeys r).find? (fun h => normName h = normName name) = some k → k ≠ "" →
        resolveCol (r :: rest) name = k) ∧
    (∀ (r : CsvRow) (rest : List CsvRow) (name : String),
        name ≠ "" → (rowKeys r).contains name = false →
        ((rowKeys r).find? (fun h => normName h = normName name) = none ∨
          (rowKeys r).find? (fun h => normName h = normName name) = some "") →
        resolveCol (r :: rest) name = name) ∧
    resolveCol [[("View_Count", .str "1")]] "View_Count" = "View_Count" ∧
    resolveCol [[("View_Count", .str "1")]] "View Count" = "View_Count" ∧
    resolveCol [[("View_Count", .str "1")]] "view_count" = "View_Count" ∧
    resolveCol [[("View_Count", .str "1")]] "VIEWCOUNT" = "View_Count" ∧
    resolveCol [[("a_b", .str "1"), ("A B", .str "2")]] "ab" = "a_b" ∧
    resolveCol [[("a_b", .str "1")]] "zzz" = "zzz" := by
  refine ⟨?_, ?_, ?_, by decide, by decide, by decide, by decide, by decide, by decide⟩
  · intro r rest name h
    by_cases hname : name = ""
    · simp [resolveCol, hname]
    · have hmem : name ∈ rowKeys r := by simpa using h
      simp [resolveCol, hname, hmem]
  · intro r rest name k hname hc hfind hk
    simp only [resolveCol, List.isEmpty_cons, Bool.false_or, hname, if_neg,
      List.headD_cons, hc, Bool.false_eq_true, if_false]
    simp [hfind, hk, hname]
  · intro r rest name hname hc hfind
    simp only [resolveCol, List.isEmpty_cons, Bool.false_or, hname, if_neg,
      List.headD_cons, hc, Bool.false_eq_true, if_false]
    rcases hfind with hf | hf
    · simp [hf, hname]
    · simp [hf, hname]

/-- Witness for C4: the three universally quantified parts applied at
concrete inputs — an exact match, a truthy normalized match, and the
empty-string-header fallback. -/
theorem c4_resolve_col_witness :
    ((rowKeys [("View_Count", CellVal.str "1")]).contains "View_Count" = true ∧
      resolveCol [[("View_Count", CellVal.str "1")]] "View_Count" = "View_Count") ∧
    ("view_count" ≠ "" ∧
      (rowKeys [("View_Count", CellVal.str "1")]).contains "view_count" = false ∧
      (rowKeys [("View_Count", CellVal.str "1")]).find?
          (fun h => normName h = normName "view_count") = some "View_Count" ∧
      ("View_Count" : String) ≠ "" ∧
      resolveCol [[("View_Count", CellVal.str "1")]] "view_count" = "View_Count") ∧
    ("_" ≠ "" ∧
      (rowKeys [("a", CellVal.str "1"), ("", CellVal.str "2")]).contains "_" = false ∧
      (rowKeys [("a", CellVal.str "1"), ("", CellVal.str "2")]).find?
          (fun h => normName h = normName "_") = some "" ∧
      resolveCol [[("a", CellVal.str "1"), ("", CellVal.str "2")]] "_" = "_") :=
  ⟨⟨by decide, c4_resolve_col.1 [("View_Count", CellVal.str "1")] [] "View_Count" (by decide)⟩,
   ⟨by decide, by decide, by decide, by decide,
    c4_resolve_col.2.1 [("View_Count", CellVal.str "1")] [] "view_count" "View_Count"
      (by decide) (by decide) (by decide) (by decide)⟩,
   ⟨by decide, by decide, by decide,
    c4_resolve_col.2.2.1 [("a", CellVal.str "1"), ("", CellVal.str "2")] [] "_"
      (by decide) (by decide) (Or.inr (by decide))⟩⟩

/-- Trimming only removes characters: membership in the trimmed list
implies membership in the original. -/
theorem mem_of_mem_trimChars {c : Char} {cs : List Char} (h : c ∈ trimChars cs) : c ∈ cs := by
  unfold trimChars at h
  rw [List.mem_reverse] at h
  have h1 := (List.dropWhile_sublist (l := (cs.dropWhile isWsChar).reverse) (p := isWsChar)).mem h
  rw [List.mem_reverse] at h1
  exact (List.dropWhile_sublist (l := cs) (p := isWsChar)).mem h1

/-- No field the line parser emits contains a double quote: the quote
character only toggles the in-quotes state and is never appended. -/
theorem parseLineAux_no_quote :
    ∀ (cs : List Char) (inQuotes : Bool) (cur : List Char), '"' ∉ cur →
      ∀ f ∈ parseLineAux cs inQuotes cur, '"' ∉ f := by
  intro cs
  induction cs with
  | nil =>
    intro inQuotes cur hcur f hf
    simp only [parseLineAux, List.mem_singleton] at hf
    subst hf
    exact fun hq => hcur (mem_of_mem_trimChars hq)
  | cons c rest ih =>
    intro inQuotes cur hcur f hf
    by_cases h1 : c = '"'
    · rw [parseLineAux, if_pos (by simp [h1])] at hf
      exact ih (!inQuotes) cur hcur f hf
    · by_cases h2 : (c = ',' && !inQuotes) = true
      · rw [parseLineAux, if_neg (by simp [h1]), if_pos h2] at hf
        rcases List.mem_cons.mp hf with hf1 | hf2
        · subst hf1
          exact fun hq => hcur (mem_of_mem_trimChars hq)
        · exact ih false [] (by simp) f hf2
      · rw [parseLineAux, if_neg (by simp [h1]), if_neg h2] at hf
        refine ih inQuotes (cur ++ [c]) ?_ f hf
        intro hq
        rcases List.mem_append.mp hq with hq1 | hq2
        · exact hcur hq1
        · simp at hq2
          exact h1 hq2.symm

/-- Counterexample to claim C5 as stated: inside a quoted field, a doubled
double quote does not produce a literal quote character — both quotes are
consumed by the toggling scanner, so `"say ""hi"""` parses to `say hi`,
not to `say "hi"`. -/
theorem c5_doubled_quote_counterexample :
    parseLine "\"say \"\"hi\"\"\"" = ["say hi"] ∧
    parseLine "\"say \"\"hi\"\"\"" ≠ ["say \"hi\""] := by decide

/-- Claim C5 (amended): a comma between double quotes is a literal
character of the field and quote wrapper characters are stripped from
fields and headers, but a doubled double quote contributes no character at
all — no parsed field ever contains a double quote. -/
theorem c5_parse_line_quoting :
    parseLine "\"a,b\",c" = ["a,b", "c"] ∧
    parseLine "\"a\"\"b\"" = ["ab"] ∧
    (parseCsvToRows "\"Header Name\",x\n1,2").headers = ["Header Name", "x"] ∧
    ∀ (line : String), (parseLine line).all (fun f => f.data.all (fun c => c ≠ '"')) := by
  refine ⟨by decide, by decide, by decide, ?_⟩
  intro line
  rw [List.all_eq_true]
  intro f hf
  rw [List.all_eq_true]
  intro c hc
  simp only [decide_eq_true_eq]
  intro hcq
  subst hcq
  unfold parseLine at hf
  rcases List.mem_map.mp hf with ⟨g, hg, hfg⟩
  have hq : '"' ∉ g := parseLineAux_no_quote line.data false [] (by simp) g hg
  rw [← hfg] at hc
  exact hq hc

/-- Assigning a fresh key appends it to the insertion-order key list. -/
theorem insOrderKeys_jsObjSet_of_not_mem {r : CsvRow} {k : String} (v : CellVal)
    (h : k ∉ insOrderKeys r) : insOrderKeys (jsObjSet r k v) = insOrderKeys r ++ [k] := by
  unfold jsObjSet
  rw [if_neg]
  · simp [insOrderKeys]
  · simp only [List.any_eq_true, decide_eq_true_eq]
    rintro ⟨p, hp, hpk⟩
    exact h (by simpa [insOrderKeys, hpk] using List.mem_map_of_mem (fun q => q.1) hp)

/-- Building a row over distinct fresh headers produces exactly those keys
in insertion order, appended to the accumulator's keys. -/
theorem insOrderKeys_buildRowAux :
    ∀ (hs : List String) (vals : List String) (obj : CsvRow), hs.Nodup →
      (∀ h ∈ hs, h ∉ insOrderKeys obj) →
      insOrderKeys (buildRowAux obj hs vals) = insOrderKeys obj ++ hs := by
  intro hs
  induction hs with
  | nil =>
    intro vals obj _ _
    simp [buildRowAux]
  | cons h t ih =>
    intro vals obj hnd hfresh
    rw [buildRowAux]
    have hk : insOrderKeys (jsObjSet obj h (.str (stripWrapQuotes (vals.headD "")))) =
        insOrderKeys obj ++ [h] :=
      insOrderKeys_jsObjSet_of_not_mem _ (hfresh h (List.mem_cons_self h t))
    rw [ih (vals.drop 1) _ (List.nodup_cons.mp hnd).2 ?_, hk]
    · simp
    · intro x hx
      rw [hk]
      simp only [List.mem_append, List.mem_singleton]
      rintro (hx1 | hx2)
      · exact hfresh x (List.mem_cons_of_mem h hx) hx1
      · exact (List.nodup_cons.mp hnd).1 (hx2 ▸ hx)

/-- A row built from distinct headers has exactly those insertion-order
keys. -/
theorem insOrderKeys_buildRow (headers vals : List String) (hnd : headers.Nodup) :
    insOrderKeys (buildRow headers vals) = headers := by
  unfold buildRow
  simpa using insOrderKeys_buildRowAux headers vals [] hnd (by simp [insOrderKeys])

/-- A stable insertion is a permutation of consing the new element. -/
theorem stableInsert_perm {α : Type} (le : α → α → Bool) (x : α) :
    ∀ (m : List α), (stableInsert le x m).Perm (x :: m) := by
  intro m
  induction m with
  | nil => simp [stableInsert]
  | cons y ys ih =>
    rw [stableInsert]
    by_cases h : le y x
    · rw [if_pos h]
      exact (ih.cons y).trans (List.Perm.swap x y ys)
    · rw [if_neg h]

/-- The stable sort permutes its input (accumulator form). -/
theorem jsSortModel_perm_aux {α : Type} (le : α → α → Bool) :
    ∀ (l acc : List α),
      (l.foldl (fun acc x => stableInsert le x acc) acc).Perm (acc ++ l) := by
  intro l
  induction l with
  | nil =>
    intro acc
    simp
  | cons x t ih =>
    intro acc
    rw [List.foldl_cons]
    refine (ih (stableInsert le x acc)).trans ?_
    refine (List.Perm.append_right t (stableInsert_perm le x acc)).trans ?_
    exact List.perm_middle.symm

/-- The stable sort permutes its input. -/
theorem jsSortModel_perm {α : Type} (le : α → α → Bool) (l : List α) :
    (jsSortModel le l).Perm l := by
  simpa using jsSortModel_perm_aux le l []

/-- The ECMAScript enumeration order of a key list is a permutation of the
insertion order. -/
theorem jsKeyOrder_perm (l : List String) : (jsKeyOrder l).Perm l := by
  unfold jsKeyOrder
  refine (List.Perm.append_right _ (jsSortModel_perm _ _)).trans ?_
  exact List.filter_append_perm _ l

/-- Counterexample to claim C6 as stated: on the text `a,a\n1,2` the
header line yields H = 2 headers, but JS object assignment collapses the
duplicate key, so the single row has 1 key, not "exactly the H header
keys". -/
theorem c6_duplicate_header_counterexample :
    (parseCsvToRows "a,a\n1,2").headers.length = 2 ∧
    ∃ r ∈ (parseCsvToRows "a,a\n1,2").rows, (rowKeys r).length ≠ 2 := by decide

/-- Claim C6 (amended): fewer than 2 non-blank lines give the empty
dataset; otherwise, provided the parsed header names are distinct, N
non-blank data lines produce exactly N rows, each with exactly the header
keys as a key multiset — `Object.keys` enumerates array-index keys first,
so the keys need not appear in header order (blank lines are skipped and
missing trailing fields become the empty string; with duplicate headers a
row keeps only the distinct keys). -/
theorem c6_loader_shape :
    (∀ (text : String),
        ((splitOnChar text '\n').filter (fun l => strTrim l ≠ "")).length < 2 →
        parseCsvToRows text = ⟨[], []⟩) ∧
    (∀ (text : String),
        2 ≤ ((splitOnChar text '\n').filter (fun l => strTrim l ≠ "")).length →
        (parseCsvToRows text).headers.Nodup →
        (parseCsvToRows text).rows.length =
          ((splitOnChar text '\n').filter (fun l => strTrim l ≠ "")).length - 1 ∧
        ∀ r ∈ (parseCsvToRows text).rows, (rowKeys r).Perm (parseCsvToRows text).headers) := by
  constructor
  · intro text h
    rw [parseCsvToRows, if_pos h]
  · intro text h2 hnodup
    rw [parseCsvToRows, if_neg (by omega)] at hnodup ⊢
    simp only [List.length_map] at hnodup ⊢
    refine ⟨by simp, ?_⟩
    intro r hr
    rcases List.mem_map.mp hr with ⟨line, _, hline⟩
    rw [← hline]
    simp only [rowKeys]
    rw [insOrderKeys_buildRow _ _ hnodup]
    exact jsKeyOrder_perm _

/-- Witness for C6 on the text `a,b\n1\n2,3,4`: 3 non-blank lines, distinct
headers, 2 rows, each with exactly the keys `a`, `b`. -/
theorem c6_loader_shape_witness :
    2 ≤ ((splitOnChar "a,b\n1\n2,3,4" '\n').filter (fun l => strTrim l ≠ "")).length ∧
    (parseCsvToRows "a,b\n1\n2,3,4").headers.Nodup ∧
    ((parseCsvToRows "a,b\n1\n2,3,4").rows.length =
        ((splitOnChar "a,b\n1\n2,3,4" '\n').filter (fun l => strTrim l ≠ "")).length - 1 ∧
      ∀ r ∈ (parseCsvToRows "a,b\n1\n2,3,4").rows,
        (rowKeys r).Perm (parseCsvToRows "a,b\n1\n2,3,4").headers) :=
  ⟨by decide, by decide, c6_loader_shape.2 "a,b\n1\n2,3,4" (by decide) (by decide)⟩

/-- Membership in a stable insertion. -/
theorem mem_stableInsert {α : Type} (le : α → α → Bool) (x z : α) :
    ∀ (m : List α), z ∈ stableInsert le x m ↔ z = x ∨ z ∈ m := by
  intro m
  induction m with
  | nil => simp [stableInsert]
  | cons y ys ih =>
    rw [stableInsert]
    by_cases h : le y x
    · rw [if_pos h]
      simp only [List.mem_cons, ih]
      tauto
    · rw [if_neg h]
      simp only [List.mem_cons]

/-- Inserting into a descending-by-count list keeps it descending. -/
theorem stableInsert_pairwise_desc (x : CellVal × Nat) :
    ∀ (m : List (CellVal × Nat)),
      List.Pairwise (fun a b : CellVal × Nat => b.2 ≤ a.2) m →
      List.Pairwise (fun a b : CellVal × Nat => b.2 ≤ a.2)
        (stableInsert (fun a b : CellVal × Nat => decide (b.2 ≤ a.2)) x m) := by
  intro m
  induction m with
  | nil => simp [stableInsert]
  | cons y ys ih =>
    intro hm
    rcases List.pairwise_cons.mp hm with ⟨hy, hys⟩
    rw [stableInsert]
    by_cases h : (decide (x.2 ≤ y.2)) = true
    · rw [if_pos h]
      rw [List.pairwise_cons]
      refine ⟨?_, ih hys⟩
      intro z hz
      rcases (mem_stableInsert _ x z ys).mp hz with hz1 | hz2
      · subst hz1
        exact decide_eq_true_eq.mp h
      · exact hy z hz2
    · rw [if_neg h]
      have hxy : y.2 ≤ x.2 := by
        have hlt : ¬ (x.2 ≤ y.2) := by simpa using h
        omega
      rw [List.pairwise_cons]
      refine ⟨?_, hm⟩
      intro z hz
      rcases List.mem_cons.mp hz with hz1 | hz2
      · subst hz1
        exact hxy
      · exact le_trans (hy z hz2) hxy

/-- Stability of one insertion: on a descending list, the count-`c`
entries of the inserted list are the original count-`c` entries, with `x`
appended when its count is `c`. -/
theorem filter_stableInsert (c : Nat) (x : CellVal × Nat) :
    ∀ (m : List (CellVal × Nat)),
      List.Pairwise (fun a b : CellVal × Nat => b.2 ≤ a.2) m →
      (stableInsert (fun a b : CellVal × Nat => decide (b.2 ≤ a.2)) x m).filter
          (fun e => e.2 = c) =
        m.filter (fun e => e.2 = c) ++ (if x.2 = c then [x] else []) := by
  intro m
  induction m with
  | nil =>
    intro _
    rw [stableInsert]
    by_cases hx : x.2 = c
    · simp [List.filter_cons, hx]
    · simp [List.filter_cons, hx]
  | cons y ys ih =>
    intro hm
    rcases List.pairwise_cons.mp hm with ⟨hy, hys⟩
    rw [stableInsert]
    by_cases h : (decide (x.2 ≤ y.2)) = true
    · rw [if_pos h, List.filter_cons, List.filter_cons, ih hys]
      by_cases hyc : y.2 = c
      · simp [hyc]
      · simp [hyc]
    · rw [if_neg h]
      have hlt : y.2 < x.2 := by
        have hh : ¬ (x.2 ≤ y.2) := by simpa using h
        omega
      by_cases hx : x.2 = c
      · have hnil : (y :: ys).filter (fun e => e.2 = c) = [] := by
          rw [List.filter_eq_nil_iff]
          intro z hz
          simp only [decide_eq_true_eq]
          rcases List.mem_cons.mp hz with hz1 | hz2
          · subst hz1
            omega
          · have := hy z hz2
            omega
        rw [List.filter_cons, if_pos (by simpa using hx), hnil]
        simp [hx]
      · rw [List.filter_cons, if_neg (by simpa using hx)]
        simp [hx]

/-- The stable sort by descending count always produces a descending
list. -/
theorem jsSortModel_desc_aux :
    ∀ (l acc : List (CellVal × Nat)),
      List.Pairwise (fun a b : CellVal × Nat => b.2 ≤ a.2) acc →
      List.Pairwise (fun a b : CellVal × Nat => b.2 ≤ a.2)
        (l.foldl (fun acc x =>
          stableInsert (fun a b : CellVal × Nat => decide (b.2 ≤ a.2)) x acc) acc) := by
  intro l
  induction l with
  | nil => intro acc h; exact h
  | cons x t ih =>
    intro acc h
    exact ih _ (stableInsert_pairwise_desc x acc h)

/-- The stable sort by descending count is sorted. -/
theorem jsSortModel_desc (l : List (CellVal × Nat)) :
    List.Pairwise (fun a b : CellVal × Nat => b.2 ≤ a.2)
      (jsSortModel (fun a b : CellVal × Nat => decide (b.2 ≤ a.2)) l) :=
  jsSortModel_desc_aux l [] (by simp)

/-- Stability of the full sort, accumulator form. -/
theorem jsSortModel_filter_aux (c : Nat) :
    ∀ (l acc : List (CellVal × Nat)),
      List.Pairwise (fun a b : CellVal × Nat => b.2 ≤ a.2) acc →
      (l.foldl (fun acc x =>
          stableInsert (fun a b : CellVal × Nat => decide (b.2 ≤ a.2)) x acc) acc).filter
          (fun e => e.2 = c) =
        acc.filter (fun e => e.2 = c) ++ l.filter (fun e => e.2 = c) := by
  intro l
  induction l with
  | nil =>
    intro acc h
    simp
  | cons x t ih =>
    intro acc h
    rw [List.foldl_cons, ih _ (stableInsert_pairwise_desc x acc h),
      filter_stableInsert c x acc h, List.filter_cons, List.append_assoc]
    by_cases hx : x.2 = c
    · simp [hx]
    · simp [hx]

/-- Stability of the stable sort by descending count: the entries with any
fixed count keep their original relative order (their filtered sublist is
unchanged by sorting). -/
theorem jsSortModel_filter_eq (c : Nat) (l : List (CellVal × Nat)) :
    (jsSortModel (fun a b : CellVal × Nat => decide (b.2 ≤ a.2)) l).filter
        (fun e => e.2 = c) =
      l.filter (fun e => e.2 = c) := by
  rw [jsSortModel, jsSortModel_filter_aux c l [] (by simp)]
  simp

/-- Counterexample to claim C7 as stated: ties are not broken by
first-encounter order — `Object.entries` enumerates integer-like value
strings first in ascending numeric order, so over the values
9, 9, 2, 2, 5, 5 with `top_n = 2` the program returns the entries 2 ↦ 2
and 5 ↦ 2, not the first-encountered 9 ↦ 2 and 2 ↦ 2 the claim
requires. -/
theorem c7_integer_key_counterexample :
    executeTool dummyImgApi "get_value_counts" { column := "v", top_n := some 2 } rows955 [] =
      .valueCounts "v" 6 [(.str "2", 2), (.str "5", 2)] ∧
    [((CellVal.str "2" : CellVal), 2), (CellVal.str "5", 2)] ≠
      [((CellVal.str "9" : CellVal), 2), (CellVal.str "2", 2)] := by decide

/-- Claim C7 (amended): value counts over a, a, b with the default top-10
yields exactly a ↦ 2, b ↦ 1; in general the returned list has at most
`top_n` entries (default 10) and is ordered by descending frequency, and
the stable sort preserves the `Object.entries` enumeration order of
entries with equal frequency (integer-like value strings ascending first,
then first-occurrence order — the filtered sublist at any fixed frequency
is unchanged by the sort, as on the 9, 9, 2, 2, 5, 5 example). -/
theorem c7_value_counts :
    executeTool dummyImgApi "get_value_counts" { column := "v" } rowsAB [] =
      .valueCounts "v" 3 [(.str "a", 2), (.str "b", 1)] ∧
    executeTool dummyImgApi "get_value_counts" { column := "v", top_n := some 2 } rows955 [] =
      .valueCounts "v" 6 [(.str "2", 2), (.str "5", 2)] ∧
    (∀ (imgApi : String → Option String → Except String (String × String))
        (args : ToolArgs) (rows : List CsvRow) (userImages : List (String × String))
        (col : String) (total : Nat) (counts : List (CellVal × Nat)),
        executeTool imgApi "get_value_counts" args rows userImages =
          .valueCounts col total counts →
        counts.length ≤ jsOrNat args.top_n 10 ∧
        List.Pairwise (fun a b : CellVal × Nat => b.2 ≤ a.2) counts) ∧
    (∀ (c : Nat) (l : List (CellVal × Nat)),
        (jsSortModel (fun a b : CellVal × Nat => decide (b.2 ≤ a.2)) l).filter
            (fun e => e.2 = c) =
          l.filter (fun e => e.2 = c)) := by
  refine ⟨by decide, by decide, ?_, jsSortModel_filter_eq⟩
  intro imgApi args rows userImages col total counts heq
  simp only [executeTool, if_neg (show ¬ ("get_value_counts" = "compute_column_stats") by decide),
    if_pos rfl] at heq
  rw [if_pos trivial] at heq
  simp only [ToolResult.valueCounts.injEq] at heq
  rcases heq with ⟨h1, h2, h3⟩
  subst h3
  constructor
  · exact List.length_take_le _ _
  · exact List.Pairwise.sublist (List.take_sublist _ _) (jsSortModel_desc _)

/-- Witness for C7: the general bound applied at the concrete a, a, b
evaluation. -/
theorem c7_value_counts_witness :
    executeTool dummyImgApi "get_value_counts" { column := "v" } rowsAB [] =
      .valueCounts "v" 3 [(.str "a", 2), (.str "b", 1)] ∧
    ([((CellVal.str "a" : CellVal), 2), (CellVal.str "b", 1)].length ≤
        jsOrNat (({ column := "v" } : ToolArgs)).top_n 10 ∧
      List.Pairwise (fun a b : CellVal × Nat => b.2 ≤ a.2)
        [((CellVal.str "a" : CellVal), 2), (CellVal.str "b", 1)]) := by
  refine ⟨by decide, ?_⟩
  exact c7_value_counts.2.2.1 dummyImgApi { column := "v" } rowsAB [] "v" 3
    [(CellVal.str "a", 2), (CellVal.str "b", 1)] (by decide)

/-- Appending the `engagement` header does not change the detected
favorites column. -/
theorem favColOf_append_engagement {headers : List String} {f : String}
    (h : favColOf headers = some f) : favColOf (headers ++ ["engagement"]) = some f := by
  unfold favColOf at h ⊢
  rw [List.find?_append, List.find?_append]
  cases h1 : headers.find? isFavoriteCountName with
  | some x =>
    rw [h1] at h
    simp at h
    simp [h]
  | none =>
    rw [h1] at h
    simp at h
    have h2 : List.find? isFavoriteCountName ["engagement"] = none := by decide
    simp [h2, h]

/-- Appending the `engagement` header does not change the detected views
column. -/
theorem viewColOf_append_engagement {headers : List String} {v : String}
    (h : viewColOf headers = some v) : viewColOf (headers ++ ["engagement"]) = some v := by
  unfold viewColOf at h ⊢
  rw [List.find?_append, List.find?_append]
  cases h1 : headers.find? isViewCountName with
  | some x =>
    rw [h1] at h
    simp at h
    simp [h]
  | none =>
    rw [h1] at h
    simp at h
    have h2 : List.find? isViewCountName ["engagement"] = none := by decide
    simp [h2, h]

/-- Claim C8: enrichment is idempotent — applying `enrichWithEngagement`
twice produces exactly the output of applying it once (the second
application is a no-op because either the first was already a no-op, or
`engagement` is now present in the headers). -/
theorem c8_enrich_idempotent (rows : List CsvRow) (headers : List String) :
    enrichWithEngagement (enrichWithEngagement rows headers).1
      (enrichWithEngagement rows headers).2 = enrichWithEngagement rows headers := by
  by_cases h0 : rows.isEmpty
  · have hfirst : enrichWithEngagement rows headers = (rows, headers) := by
      rw [enrichWithEngagement, if_pos h0]
    rw [hfirst]
    exact hfirst
  · cases hfav : favColOf headers with
    | none =>
      have hfirst : enrichWithEngagement rows headers = (rows, headers) := by
        rw [enrichWithEngagement, if_neg h0, hfav]
      rw [hfirst]
      exact hfirst
    | some f =>
      cases hview : viewColOf headers with
      | none =>
        have hfirst : enrichWithEngagement rows headers = (rows, headers) := by
          rw [enrichWithEngagement, if_neg h0, hfav, hview]
        rw [hfirst]
        exact hfirst
      | some v =>
        by_cases hcont : "engagement" ∈ headers
        · have hfirst : enrichWithEngagement rows headers = (rows, headers) := by
            simp [enrichWithEngagement, h0, hfav, hview, hcont]
          rw [hfirst]
          exact hfirst
        · have hfirst : enrichWithEngagement rows headers =
              (rows.map (fun r => jsObjSet r "engagement" (engagementVal f v r)),
                headers ++ ["engagement"]) := by
            simp [enrichWithEngagement, h0, hfav, hview, hcont]
          rw [hfirst]
          have hne : (rows.map
              (fun r => jsObjSet r "engagement" (engagementVal f v r))).isEmpty = false := by
            cases rows with
            | nil => simp at h0
            | cons a t => simp
          simp [enrichWithEngagement, hne, favColOf_append_engagement hfav,
            viewColOf_append_engagement hview]

/-- Claim C9: invalid input shapes produce structured error results rather
than exceptions (the executor is a total function): a column with no
parseable numeric values reports the available headers as context, a video
selector that matches no row or a row without a playable URL reports "not
found", and an unknown tool name reports "Unknown tool". -/
theorem c9_structured_errors :
    (∀ (imgApi : String → Option String → Except String (String × String))
        (args : ToolArgs) (rows : List CsvRow) (userImages : List (String × String)),
        numericValues rows (resolveCol rows args.column) = [] →
        executeTool imgApi "compute_column_stats" args rows userImages =
          .error ("No numeric values found in column \"" ++ resolveCol rows args.column ++
            "\". Available columns: " ++
            joinComma (if rows.isEmpty then [] else rowKeys (rows.headD [])))) ∧
    (∀ (imgApi : String → Option String → Except String (String × String))
        (args : ToolArgs) (rows : List CsvRow) (userImages : List (String × String)),
        (pickVideo rows (strLower args.selector) = none ∨
          ∃ vrow, pickVideo rows (strLower args.selector) = some vrow ∧ hasUrl vrow = false) →
        executeTool imgApi "play_video" args rows userImages =
          .error ("Video not found for \"" ++ args.selector ++
            "\". Try \"first\", \"most viewed\", or a title keyword.")) ∧
    (∀ (imgApi : String → Option String → Except String (String × String))
        (name : String) (args : ToolArgs) (rows : List CsvRow)
        (userImages : List (String × String)),
        name ∉ ["compute_column_stats", "get_value_counts", "get_top_tweets",
          "compute_stats_json", "plot_metric_vs_time", "play_video", "generateImage"] →
        executeTool imgApi name args rows userImages = .error ("Unknown tool: " ++ name)) := by
  refine ⟨?_, ?_, ?_⟩
  · intro imgApi args rows userImages h
    rw [executeTool, if_pos rfl]
    simp only [h]
  · intro imgApi args rows userImages h
    rw [executeTool, if_neg (by decide), if_neg (by decide), if_neg (by decide),
      if_neg (by decide), if_neg (by decide), if_pos rfl]
    rcases h with h1 | ⟨vrow, h2, h3⟩
    · simp only [h1]
    · simp only [h2, h3, Bool.false_eq_true, if_false]
  · intro imgApi name args rows userImages h
    simp only [List.mem_cons, List.mem_singleton, not_or] at h
    obtain ⟨h1, h2, h3, h4, h5, h6, h7, -⟩ := h
    rw [executeTool, if_neg h1, if_neg h2, if_neg h3, if_neg h4, if_neg h5, if_neg h6,
      if_neg h7]

/-- Witness for C9: the three error shapes at concrete inputs (a
non-numeric column, an unmatched selector, a bogus tool name). -/
theorem c9_structured_errors_witness :
    (numericValues [[("a", CellVal.str "x")]]
        (resolveCol [[("a", CellVal.str "x")]] (ToolArgs.mk "a" none "" none none "" "" "" none).column) = [] ∧
      executeTool dummyImgApi "compute_column_stats" (ToolArgs.mk "a" none "" none none "" "" "" none)
          [[("a", CellVal.str "x")]] [] =
        .error ("No numeric values found in column \"" ++
          resolveCol [[("a", CellVal.str "x")]] (ToolArgs.mk "a" none "" none none "" "" "" none).column ++
          "\". Available columns: " ++
          joinComma (if ([[("a", CellVal.str "x")]] : List CsvRow).isEmpty then []
            else rowKeys (([[("a", CellVal.str "x")]] : List CsvRow).headD [])))) ∧
    (pickVideo [[("a", CellVal.str "x")]]
        (strLower (ToolArgs.mk "" none "" none none "" "zzz" "" none).selector) = none ∧
      executeTool dummyImgApi "play_video" (ToolArgs.mk "" none "" none none "" "zzz" "" none)
          [[("a", CellVal.str "x")]] [] =
        .error ("Video not found for \"" ++ (ToolArgs.mk "" none "" none none "" "zzz" "" none).selector ++
          "\". Try \"first\", \"most viewed\", or a title keyword.")) ∧
    executeTool dummyImgApi "bogus" {} [[("a", CellVal.str "x")]] [] =
      .error ("Unknown tool: " ++ "bogus") :=
  ⟨⟨by decide,
    c9_structured_errors.1 dummyImgApi (ToolArgs.mk "a" none "" none none "" "" "" none)
      [[("a", CellVal.str "x")]] [] (by decide)⟩,
   ⟨by decide,
    c9_structured_errors.2.1 dummyImgApi (ToolArgs.mk "" none "" none none "" "zzz" "" none)
      [[("a", CellVal.str "x")]] [] (Or.inl (by decide))⟩,
   c9_structured_errors.2.2 dummyImgApi "bogus" {} [[("a", CellVal.str "x")]] [] (by decide)⟩

/-- Claim C10: a requested count of zero is falsy, so `top_n = 0` and
`n = 0` behave exactly like the default 10: the caller receives up to 10
entries instead of an empty result (here exactly 10 out of 11). -/
theorem c10_zero_count_not_honoured :
    (∀ (imgApi : String → Option String → Except String (String × String))
        (args : ToolArgs) (rows : List CsvRow) (userImages : List (String × String)),
        executeTool imgApi "get_value_counts" { args with top_n := some 0 } rows userImages =
          executeTool imgApi "get_value_counts" { args with top_n := some 10 } rows userImages) ∧
    (∀ (imgApi : String → Option String → Except String (String × String))
        (args : ToolArgs) (rows : List CsvRow) (userImages : List (String × String)),
        executeTool imgApi "get_top_tweets" { args with n := some 0 } rows userImages =
          executeTool imgApi "get_top_tweets" { args with n := some 10 } rows userImages) ∧
    (match executeTool dummyImgApi "get_value_counts" { column := "v", top_n := some 0 }
        rows11 [] with
      | .valueCounts _ _ cs => cs.length
      | _ => 0) = 10 ∧
    (match executeTool dummyImgApi "get_top_tweets" { sort_column := "v", n := some 0 }
        rows11t [] with
      | .tweets _ _ c _ => c
      | _ => 0) = 10 := by
  refine ⟨?_, ?_, by decide, by decide⟩
  · intro imgApi args rows userImages
    rfl
  · intro imgApi args rows userImages
    rfl
